import Mathlib

/-!
Verification of the adaptive hearing-threshold test core (old_peat).

Shallow embedding of the repository's numeric and state-machine code:
`functions/general.py` (warble_tone, doGate, rms, setRMS, mag2db, db2mag,
calc_RMS_based_on_sources, RETSPL), `models/stimulusmodel.py`
(StimulusModel.calc_presentation_lvl, _get_random_phis, create_stimulus),
`models/audiomodel.py` (Audio.play and its clipping check),
`models/scoringmodel.py` (ScoringModel.score), and the staircase
controller (modelled from the specification, since `models/staircase.py`
is not part of the source tree).

Floating-point arithmetic is embedded as exact real arithmetic; numpy
array operations become list operations; Python exceptions become
`Option`/`Except` failures.
-/

open Real

namespace Peat

/-! ### functions/general.py : decibel helpers -/

/-- Embeds `general.db2mag` (scalar case): `10**(db/20)`. -/
noncomputable def db2mag (db : ℝ) : ℝ := (10 : ℝ) ^ (db / 20)

/-- Embeds `general.mag2db` (scalar case): `20 * np.log10(mag)`. -/
noncomputable def mag2db (mag : ℝ) : ℝ := 20 * Real.logb 10 mag

/-- Embeds `general.calc_RMS_based_on_sources`, line for line:
convert SPL to intensity, multiply by the number of sources, subtract the
per-source correction, and convert back to SPL. -/
noncomputable def calc_RMS_based_on_sources (desired_SPL num_sources : ℝ) : ℝ :=
  let power_single := (10 : ℝ) ^ (desired_SPL / 10)
  let power_total := power_single * num_sources
  let diff_power := power_total - power_single
  let cf_power := diff_power / num_sources
  let new_power_single := power_single - cf_power
  10 * Real.logb 10 new_power_single

/-! ### Numeric bounds on base-10 logarithms used by the summation claims -/

lemma ten_pos : (0 : ℝ) < 10 := by norm_num

lemma log_ten_pos : (0 : ℝ) < Real.log 10 :=
  Real.log_pos (by norm_num)

/-- Bound a base-10 logarithm from below by comparing natural powers. -/
lemma logb_ten_gt {x : ℝ} {p q : ℕ} (hx : 0 < x) (hq : 0 < q)
    (h : (10 : ℝ) ^ p < x ^ q) : (p : ℝ) / q < Real.logb 10 x := by
  have hlog : (p : ℝ) * Real.log 10 < (q : ℝ) * Real.log x := by
    have h1 : Real.log ((10 : ℝ) ^ p) < Real.log (x ^ q) :=
      (Real.log_lt_log_iff (by positivity) (by positivity)).mpr h
    simpa [Real.log_pow] using h1
  have hq' : (0 : ℝ) < q := by exact_mod_cast hq
  rw [Real.logb, div_lt_div_iff hq' log_ten_pos]
  linarith [hlog]

/-- Bound a base-10 logarithm from above by comparing natural powers. -/
lemma logb_ten_lt {x : ℝ} {p q : ℕ} (hx : 0 < x) (hq : 0 < q)
    (h : x ^ q < (10 : ℝ) ^ p) : Real.logb 10 x < (p : ℝ) / q := by
  have hlog : (q : ℝ) * Real.log x < (p : ℝ) * Real.log 10 := by
    have h1 : Real.log (x ^ q) < Real.log ((10 : ℝ) ^ p) :=
      (Real.log_lt_log_iff (by positivity) (by positivity)).mpr h
    simpa [Real.log_pow] using h1
  have hq' : (0 : ℝ) < q := by exact_mod_cast hq
  rw [Real.logb, div_lt_div_iff log_ten_pos hq']
  linarith [hlog]

lemma pow_cmp_two_lo : (10 : ℝ) ^ (30102 : ℕ) < (2 : ℝ) ^ (100000 : ℕ) := by
  have h : (10 : ℕ) ^ (30102 : ℕ) < (2 : ℕ) ^ (100000 : ℕ) := by norm_num
  calc (10 : ℝ) ^ (30102 : ℕ) = ((10 : ℕ) ^ (30102 : ℕ) : ℕ) := by push_cast; ring
    _ < ((2 : ℕ) ^ (100000 : ℕ) : ℕ) := by exact_mod_cast h
    _ = (2 : ℝ) ^ (100000 : ℕ) := by push_cast; ring

lemma pow_cmp_two_hi : (2 : ℝ) ^ (100000 : ℕ) < (10 : ℝ) ^ (30103 : ℕ) := by
  have h : (2 : ℕ) ^ (100000 : ℕ) < (10 : ℕ) ^ (30103 : ℕ) := by norm_num
  calc (2 : ℝ) ^ (100000 : ℕ) = ((2 : ℕ) ^ (100000 : ℕ) : ℕ) := by push_cast; ring
    _ < ((10 : ℕ) ^ (30103 : ℕ) : ℕ) := by exact_mod_cast h
    _ = (10 : ℝ) ^ (30103 : ℕ) := by push_cast; ring

/-- Two-sided numeric bound on the base-10 logarithm of 2. -/
lemma logb_two_bounds :
    (30102 : ℝ) / 100000 < Real.logb 10 2 ∧ Real.logb 10 2 < (30103 : ℝ) / 100000 := by
  constructor
  · exact_mod_cast logb_ten_gt (by norm_num) (by norm_num) pow_cmp_two_lo
  · exact_mod_cast logb_ten_lt (by norm_num) (by norm_num) pow_cmp_two_hi

lemma pow_cmp_three_lo : (10 : ℝ) ^ (47712 : ℕ) < (3 : ℝ) ^ (100000 : ℕ) := by
  have h : (10 : ℕ) ^ (47712 : ℕ) < (3 : ℕ) ^ (100000 : ℕ) := by norm_num
  calc (10 : ℝ) ^ (47712 : ℕ) = ((10 : ℕ) ^ (47712 : ℕ) : ℕ) := by push_cast; ring
    _ < ((3 : ℕ) ^ (100000 : ℕ) : ℕ) := by exact_mod_cast h
    _ = (3 : ℝ) ^ (100000 : ℕ) := by push_cast; ring

lemma pow_cmp_three_hi : (3 : ℝ) ^ (100000 : ℕ) < (10 : ℝ) ^ (47713 : ℕ) := by
  have h : (3 : ℕ) ^ (100000 : ℕ) < (10 : ℕ) ^ (47713 : ℕ) := by norm_num
  calc (3 : ℝ) ^ (100000 : ℕ) = ((3 : ℕ) ^ (100000 : ℕ) : ℕ) := by push_cast; ring
    _ < ((10 : ℕ) ^ (47713 : ℕ) : ℕ) := by exact_mod_cast h
    _ = (10 : ℝ) ^ (47713 : ℕ) := by push_cast; ring

/-- Two-sided numeric bound on the base-10 logarithm of 3. -/
lemma logb_three_bounds :
    (47712 : ℝ) / 100000 < Real.logb 10 3 ∧ Real.logb 10 3 < (47713 : ℝ) / 100000 := by
  constructor
  · exact_mod_cast logb_ten_gt (by norm_num) (by norm_num) pow_cmp_three_lo
  · exact_mod_cast logb_ten_lt (by norm_num) (by norm_num) pow_cmp_three_hi

/-- Closed form: the per-channel level is the desired SPL minus
`10 * log10 (num_sources)`, provided the source count is nonzero. -/
lemma calc_RMS_closed_form (x n : ℝ) (hn : n ≠ 0) :
    calc_RMS_based_on_sources x n = x - 10 * Real.logb 10 n := by
  have hps : (0 : ℝ) < (10 : ℝ) ^ (x / 10) := Real.rpow_pos_of_pos ten_pos _
  have key : (10 : ℝ) ^ (x / 10) - ((10 : ℝ) ^ (x / 10) * n - (10 : ℝ) ^ (x / 10)) / n
      = (10 : ℝ) ^ (x / 10) / n := by
    field_simp
  simp only [calc_RMS_based_on_sources]
  rw [key, Real.logb_div (ne_of_gt hps) hn, Real.logb_rpow ten_pos (by norm_num)]
  ring

/-- Claim C1: for one source the summation is the identity; for the tested
inputs (50, 2) and (50, 3) it reproduces the unit-test reference values
46.9897 and 45.2288 to within 1e-4. -/
theorem C1_summation_level :
    (∀ x : ℝ, calc_RMS_based_on_sources x 1 = x) ∧
    |calc_RMS_based_on_sources 50 2 - 46.9897| ≤ 1e-4 ∧
    |calc_RMS_based_on_sources 50 3 - 45.2288| ≤ 1e-4 := by
  refine ⟨fun x => ?_, ?_, ?_⟩
  · rw [calc_RMS_closed_form x 1 one_ne_zero]
    simp
  · rw [calc_RMS_closed_form 50 2 two_ne_zero]
    obtain ⟨hlo, hhi⟩ := logb_two_bounds
    rw [abs_le]
    constructor <;> nlinarith [hlo, hhi]
  · rw [calc_RMS_closed_form 50 3 three_ne_zero]
    obtain ⟨hlo, hhi⟩ := logb_three_bounds
    rw [abs_le]
    constructor <;> nlinarith [hlo, hhi]

/-! ### functions/general.py : RMS normalization -/

/-- Embeds `general.rms`: `np.sqrt(np.mean(np.square(sig)))` on a
one-dimensional signal. -/
noncomputable def rms (sig : List ℝ) : ℝ :=
  Real.sqrt ((sig.map (fun x => x ^ 2)).sum / sig.length)

/-- Embeds the one-channel branch of `general.setRMS`. The source compares
the signal's dB level against the target and divides, multiplies, or leaves
the signal alone. When the RMS is zero (empty signal, or all-zero signal)
the source computes `log10` of 0 / mean of an empty array, yielding
`-inf`/NaN and no finite-valued result (for an empty signal none of the
comparison branches runs and the function raises `UnboundLocalError`);
this failure mode is embedded as `none`. -/
noncomputable def setRMS (sig : List ℝ) (amp : ℝ) : Option (List ℝ) :=
  if rms sig = 0 then none
  else
    let rmsdb := mag2db (rms sig)
    let refdb := amp
    let diffdb := |rmsdb - refdb|
    if rmsdb > refdb then some (sig.map (fun x => x / db2mag diffdb))
    else if rmsdb < refdb then some (sig.map (fun x => x * db2mag diffdb))
    else some sig

lemma db2mag_pos (d : ℝ) : 0 < db2mag d :=
  Real.rpow_pos_of_pos ten_pos _

lemma rms_nonneg (sig : List ℝ) : 0 ≤ rms sig :=
  Real.sqrt_nonneg _

/-- Scaling every sample by `c` scales the RMS by `abs c`. -/
lemma rms_map_mul (sig : List ℝ) (c : ℝ) :
    rms (sig.map (fun x => x * c)) = |c| * rms sig := by
  unfold rms
  rw [List.map_map, List.length_map]
  have h1 : ((sig.map ((fun x => x ^ 2) ∘ fun x => x * c)).sum)
      = c ^ 2 * (sig.map (fun x => x ^ 2)).sum := by
    induction sig with
    | nil => simp
    | cons a l ih =>
      simp only [List.map_cons, List.sum_cons, ih, Function.comp]
      ring
  rw [h1, mul_div_assoc, Real.sqrt_mul (sq_nonneg c), Real.sqrt_sq_eq_abs]

lemma mag2db_mul {a b : ℝ} (ha : a ≠ 0) (hb : b ≠ 0) :
    mag2db (a * b) = mag2db a + mag2db b := by
  unfold mag2db
  rw [Real.logb_mul ha hb]
  ring

lemma mag2db_db2mag (d : ℝ) : mag2db (db2mag d) = d := by
  unfold mag2db db2mag
  rw [Real.logb_rpow ten_pos (by norm_num)]
  ring

lemma mag2db_inv (a : ℝ) : mag2db a⁻¹ = -mag2db a := by
  unfold mag2db
  rw [Real.logb_inv]
  ring

/-- Claim C2: for a 1-channel signal of nonzero RMS, `setRMS` divides by
`10 ^ (abs Δ / 20)` when the signal is above the target, multiplies when it
is below, returns the signal unchanged at exact equality, and the resulting
RMS equals the target level `amp` within 0.01 dB (it is in fact exact). -/
theorem C2_setRMS (sig : List ℝ) (amp : ℝ) (h : rms sig ≠ 0) :
    (amp < mag2db (rms sig) →
      setRMS sig amp = some (sig.map (fun x => x / db2mag |mag2db (rms sig) - amp|))) ∧
    (mag2db (rms sig) < amp →
      setRMS sig amp = some (sig.map (fun x => x * db2mag |mag2db (rms sig) - amp|))) ∧
    (mag2db (rms sig) = amp → setRMS sig amp = some sig) ∧
    |mag2db (rms ((setRMS sig amp).getD [])) - amp| ≤ 0.01 := by
  have hrms : 0 < rms sig := lt_of_le_of_ne (rms_nonneg sig) (Ne.symm h)
  have hmagpos : ∀ d : ℝ, (0 : ℝ) < db2mag d := db2mag_pos
  have hdiv_as_mul : ∀ d : ℝ, sig.map (fun x => x / db2mag d)
      = sig.map (fun x => x * (db2mag d)⁻¹) := by
    intro d
    simp [div_eq_mul_inv]
  have key_mul : ∀ d : ℝ,
      mag2db (rms (sig.map (fun x => x * db2mag d))) = d + mag2db (rms sig) := by
    intro d
    rw [rms_map_mul, abs_of_pos (hmagpos d),
      mag2db_mul (ne_of_gt (hmagpos d)) h, mag2db_db2mag]
  have key_div : ∀ d : ℝ,
      mag2db (rms (sig.map (fun x => x / db2mag d))) = mag2db (rms sig) - d := by
    intro d
    rw [hdiv_as_mul d, rms_map_mul, abs_of_pos (inv_pos.mpr (hmagpos d)),
      mag2db_mul (ne_of_gt (inv_pos.mpr (hmagpos d))) h, mag2db_inv, mag2db_db2mag]
    ring
  rcases lt_trichotomy (mag2db (rms sig)) amp with hlt | heq | hgt
  · have hdef : setRMS sig amp = some (sig.map (fun x => x * db2mag |mag2db (rms sig) - amp|)) := by
      unfold setRMS
      rw [if_neg h, if_neg (by exact not_lt_of_lt hlt), if_pos hlt]
    refine ⟨fun hc => absurd hc (not_lt_of_lt hlt), fun _ => hdef,
      fun hc => absurd hc (ne_of_lt hlt), ?_⟩
    rw [hdef]
    simp only [Option.getD_some]
    rw [key_mul, abs_of_neg (sub_neg.mpr hlt)]
    simp
    norm_num
  · have hdef : setRMS sig amp = some sig := by
      unfold setRMS
      rw [if_neg h, if_neg (by rw [heq]; exact lt_irrefl amp),
        if_neg (by rw [heq]; exact lt_irrefl amp)]
    refine ⟨fun hc => absurd hc (by rw [heq]; exact lt_irrefl amp),
      fun hc => absurd hc (by rw [heq]; exact lt_irrefl amp), fun _ => hdef, ?_⟩
    rw [hdef]
    simp only [Option.getD_some]
    rw [heq]
    simp
    norm_num
  · have hdef : setRMS sig amp = some (sig.map (fun x => x / db2mag |mag2db (rms sig) - amp|)) := by
      unfold setRMS
      rw [if_neg h, if_pos hgt]
    refine ⟨fun _ => hdef, fun hc => absurd hc (not_lt_of_lt hgt),
      fun hc => absurd hc (by exact ne_of_gt hgt), ?_⟩
    rw [hdef]
    simp only [Option.getD_some]
    rw [key_div, abs_of_pos (sub_pos.mpr hgt)]
    simp
    norm_num

/-- Witness for claim C2 at the concrete signal `[1]` and target `-40` dB. -/
theorem C2_setRMS_witness :
    rms [(1 : ℝ)] ≠ 0 ∧
    (((-40 : ℝ) < mag2db (rms [(1 : ℝ)]) →
      setRMS [(1 : ℝ)] (-40) =
        some ([(1 : ℝ)].map (fun x => x / db2mag |mag2db (rms [(1 : ℝ)]) - (-40)|))) ∧
    (mag2db (rms [(1 : ℝ)]) < (-40 : ℝ) →
      setRMS [(1 : ℝ)] (-40) =
        some ([(1 : ℝ)].map (fun x => x * db2mag |mag2db (rms [(1 : ℝ)]) - (-40)|))) ∧
    (mag2db (rms [(1 : ℝ)]) = (-40 : ℝ) → setRMS [(1 : ℝ)] (-40) = some [(1 : ℝ)]) ∧
    |mag2db (rms ((setRMS [(1 : ℝ)] (-40)).getD [])) - (-40 : ℝ)| ≤ 0.01) := by
  have h1 : rms [(1 : ℝ)] = 1 := by
    unfold rms
    norm_num
  exact ⟨by rw [h1]; norm_num, C2_setRMS [(1 : ℝ)] (-40) (by rw [h1]; norm_num)⟩

/-! ### functions/general.py : warble tone synthesis -/

/-- Number of samples produced by `np.arange(0, dur, 1/fs)`: the ceiling of
`dur * fs` (zero when `dur * fs` is not positive, matching the empty array). -/
noncomputable def numSamples (dur fs : ℝ) : ℕ := ⌈dur * fs⌉₊

/-- Embeds `general.warble_tone`: the `k`-th sample of
`np.arange(0, dur, 1/fs)` is `k / fs`, and the signal is
`sin(wc*t + (B/wd)*(sin(wd*t - phi) + 1))` with `wc = fc*2*pi`,
`wd = mod_rate*2*pi`, `B = (mod_depth/100)*wc`. -/
noncomputable def warble_tone (dur fs fc phi mod_rate mod_depth : ℝ) : List ℝ :=
  (List.range (numSamples dur fs)).map (fun (k : ℕ) =>
    let t := (k : ℝ) / fs
    let wc := fc * 2 * π
    let wd := mod_rate * 2 * π
    let B := (mod_depth / 100) * wc
    Real.sin (wc * t + (B / wd) * (Real.sin (wd * t - phi) + 1)))

/-- Claim C5: every sample of `warble_tone` matches the specified
phase-modulation formula, and the signal has `ceil(dur*fs)` samples. -/
theorem C5_warble_tone (dur fs fc phi mod_rate mod_depth : ℝ) (hdur : 0 < dur) :
    (warble_tone dur fs fc phi mod_rate mod_depth).length = ⌈dur * fs⌉₊ ∧
    ∀ k (hk : k < (warble_tone dur fs fc phi mod_rate mod_depth).length),
      (warble_tone dur fs fc phi mod_rate mod_depth).get ⟨k, hk⟩ =
        Real.sin (2 * π * fc * ((k : ℝ) / fs) +
          ((mod_depth / 100) * (2 * π * fc) / (2 * π * mod_rate)) *
            (Real.sin (2 * π * mod_rate * ((k : ℝ) / fs) - phi) + 1)) := by
  constructor
  · unfold warble_tone
    rw [List.length_map, List.length_range]
    rfl
  · intro k hk
    rw [List.get_eq_getElem]
    simp only [warble_tone, List.getElem_map, List.getElem_range]
    ring_nf

/-- Witness for claim C5 at concrete parameters. -/
theorem C5_warble_tone_witness :
    (0 : ℝ) < 1 ∧
    ((warble_tone 1 1 1000 0 5 5).length = ⌈(1 : ℝ) * 1⌉₊ ∧
     ∀ k (hk : k < (warble_tone 1 1 1000 0 5 5).length),
       (warble_tone 1 1 1000 0 5 5).get ⟨k, hk⟩ =
         Real.sin (2 * π * 1000 * ((k : ℝ) / 1) +
           ((5 / 100) * (2 * π * 1000) / (2 * π * 5)) *
             (Real.sin (2 * π * 5 * ((k : ℝ) / 1) - 0) + 1))) :=
  ⟨by norm_num, C5_warble_tone 1 1 1000 0 5 5 (by norm_num)⟩

/-! ### functions/general.py : onset/offset gating -/

/-- Python `int(x)`: truncation toward zero. -/
noncomputable def pyInt (x : ℝ) : ℤ := if 0 ≤ x then ⌊x⌋ else ⌈x⌉

/-- The `i`-th point of `np.linspace(a, b, n)`. -/
noncomputable def linspaceVal (a b : ℝ) (n i : ℕ) : ℝ :=
  if n ≤ 1 then a else a + (b - a) * i / ((n : ℝ) - 1)

/-- Embeds the one-channel branch of `general.doGate`. The ramp has
`int(fs*rampdur)` samples of a raised cosine; the sustain is
`np.ones(len(sig) - 2*len(gate))`, which raises `ValueError` (embedded as
`none`) when that length is negative. -/
noncomputable def doGate (sig : List ℝ) (rampdur fs : ℝ) : Option (List ℝ) :=
  let gateLen := (pyInt (fs * rampdur)).toNat
  let gate := (List.range gateLen).map
    (fun i => (Real.cos (linspaceVal π (2 * π) gateLen i) + 1) / 2)
  let offsetgate := gate.reverse
  if sig.length < 2 * gateLen then none
  else
    let sustain := List.replicate (sig.length - 2 * gateLen) (1 : ℝ)
    let envelope := gate ++ sustain ++ offsetgate
    some (List.zipWith (fun e x => e * x) envelope sig)

/-! ### models/stimulusmodel.py : seeded phase selection -/

/-- The vetted candidate starting phases, in degrees
(`StimulusModel._get_random_phis`). -/
def degreesList : List ℚ := [0, 40, 80, 120, 150, -40, -80, -120, -150]

/-- The order in which `random.Random(217).sample` draws the nine candidate
phases without replacement. For a nine-element population CPython uses the
partial-shuffle pool method, so the draw for `k` channels is the first `k`
entries of one fixed permutation of the candidate list. -/
def seededDraw : List ℚ := [150, 120, 40, 80, -80, 0, -150, -120, -40]

/-- Embeds `random.Random(217).sample(degrees, k)`: deterministic because the
generator is constructed with the literal seed 217 on every call; raises
`ValueError` (embedded as `none`) when `k` exceeds the population size. -/
def sample217 (k : ℕ) : Option (List ℚ) :=
  if k ≤ degreesList.length then some (seededDraw.take k) else none

/-- Embeds `StimulusModel._get_random_phis`: sample `stim_chans` phases in
degrees and convert to radians with `np.radians` (multiply by `pi/180`). -/
noncomputable def get_random_phis (stim_chans : ℕ) : Option (List ℝ) :=
  (sample217 stim_chans).map (fun l => l.map (fun (d : ℚ) => (d : ℝ) * π / 180))

lemma radians_injective :
    Function.Injective (fun (d : ℚ) => (d : ℝ) * π / 180) := by
  intro a b hab
  simp only at hab
  have h : (a : ℝ) = b := by
    field_simp at hab
    rcases hab with h | h
    · exact_mod_cast h
    · exact absurd h Real.pi_ne_zero
  exact_mod_cast h

/-- Claim C7: for a channel count within the nine-element candidate set the
sampler returns exactly that many distinct phases drawn from the set
(converted to radians); beyond the set size it fails. -/
theorem C7_get_random_phis (n : ℕ) :
    (n ≤ 9 → ∃ l, get_random_phis n = some l ∧ l.length = n ∧ l.Nodup ∧
      ∀ φ ∈ l, ∃ d ∈ degreesList, φ = (d : ℝ) * π / 180) ∧
    (9 < n → get_random_phis n = none) := by
  have hlen9 : degreesList.length = 9 := by rfl
  have hdraw9 : seededDraw.length = 9 := by rfl
  constructor
  · intro hn
    have hsome : get_random_phis n
        = some ((seededDraw.take n).map (fun (d : ℚ) => (d : ℝ) * π / 180)) := by
      unfold get_random_phis sample217
      rw [hlen9, if_pos hn]
      rfl
    refine ⟨(seededDraw.take n).map (fun (d : ℚ) => (d : ℝ) * π / 180), hsome, ?_, ?_, ?_⟩
    · rw [List.length_map, List.length_take, hdraw9]
      omega
    · exact List.Nodup.map radians_injective
        (List.Nodup.sublist (List.take_sublist n seededDraw) (by norm_num [seededDraw]))
    · intro φ hφ
      obtain ⟨d, hd, rfl⟩ := List.mem_map.mp hφ
      have hd' : d ∈ seededDraw := List.mem_of_mem_take hd
      have hsub : ∀ x ∈ seededDraw, x ∈ degreesList := by
        norm_num [seededDraw, degreesList]
      exact ⟨d, hsub d hd', rfl⟩
  · intro hn
    unfold get_random_phis sample217
    rw [hlen9, if_neg (by omega)]
    rfl

/-- Witness for claim C7 at channel counts 3 and 10. -/
theorem C7_get_random_phis_witness :
    (∃ l, get_random_phis 3 = some l ∧ l.length = 3 ∧ l.Nodup ∧
      ∀ φ ∈ l, ∃ d ∈ degreesList, φ = (d : ℝ) * π / 180) ∧
    get_random_phis 10 = none :=
  ⟨(C7_get_random_phis 3).1 (by norm_num), (C7_get_random_phis 10).2 (by norm_num)⟩

/-! ### models/stimulusmodel.py : frequency reference table -/

/-- Embeds the `RETSPL` dictionary (ANSI S3.6 Table 9a) as an ordered
association list, exactly the 34 entries of the source. -/
def RETSPL : List (ℚ × ℚ) :=
  [(20, 78.1), (25, 68.7), (31.5, 59.5), (40, 51.1), (50, 44), (63, 37.5),
   (80, 31.5), (100, 26.5), (125, 22.1), (160, 17.9), (200, 14.4),
   (250, 11.4), (315, 8.4), (400, 5.8), (500, 3.8), (630, 2.1), (750, 1.2),
   (800, 1), (1000, 0.8), (1250, 1.9), (1500, 1), (1600, 0.5), (2000, -1.5),
   (2500, -3.1), (3000, -4), (4000, -3.8), (6000, 1.4), (6300, 2.5),
   (8000, 6.8), (9000, 8.4), (10000, 9.8), (11200, 11.5), (14000, 23.2),
   (16000, 43.7)]

/-- Embeds the dictionary access `self.RETSPL[freq]`: `some` of the stored
correction, or `none` for the `KeyError` on a missing key. -/
def retspl_lookup (freq : ℚ) : Option ℚ :=
  (RETSPL.find? (fun p => decide (p.1 = freq))).map Prod.snd

/-- Embeds `StimulusModel.calc_presentation_lvl`: add the RETSPL correction
for the frequency to the staircase level and convert for the number of
sound-field channels; a missing frequency propagates the `KeyError`. -/
noncomputable def calc_presentation_lvl (stair_lvl : ℝ) (freq : ℚ)
    (num_stim_chans : ℝ) : Option ℝ :=
  match retspl_lookup freq with
  | none => none
  | some retspl =>
      some (calc_RMS_based_on_sources (stair_lvl + (retspl : ℝ)) num_stim_chans)

/-- Claim C6: the table has exactly 34 frequencies; 1000 Hz maps to 0.8 dB;
1100 Hz is absent (KeyError, no interpolation), as is every frequency not
in the enumerated key set; and the presentation-level computation fails for
every unsupported frequency. -/
theorem C6_retspl_lookup :
    RETSPL.length = 34 ∧
    retspl_lookup 1000 = some 0.8 ∧
    retspl_lookup 1100 = none ∧
    (∀ f : ℚ, f ∉ RETSPL.map Prod.fst → retspl_lookup f = none) ∧
    (∀ f : ℚ, retspl_lookup f = none →
      ∀ lvl n : ℝ, calc_presentation_lvl lvl f n = none) := by
  refine ⟨by rfl, by norm_num [retspl_lookup, RETSPL], by norm_num [retspl_lookup, RETSPL], ?_, ?_⟩
  · intro f hf
    cases hfind : RETSPL.find? (fun p => decide (p.1 = f)) with
    | none => simp [retspl_lookup, hfind]
    | some p =>
      have h1 : p.1 = f := by
        have := List.find?_some hfind
        simpa using this
      have h2 : p ∈ RETSPL := List.mem_of_find?_eq_some hfind
      exact absurd (List.mem_map.mpr ⟨p, h2, h1⟩) hf
  · intro f h lvl n
    simp [calc_presentation_lvl, h]

/-- Witness for claim C6 at the unsupported frequency 1100 Hz. -/
theorem C6_retspl_lookup_witness :
    retspl_lookup 1100 = none ∧ calc_presentation_lvl 30 1100 2 = none :=
  ⟨C6_retspl_lookup.2.2.2.1 1100 (by norm_num [RETSPL]),
   C6_retspl_lookup.2.2.2.2 1100 (by norm_num [retspl_lookup, RETSPL]) 30 2⟩

/-! ### models/audiomodel.py : playback with clipping check -/

/-- Errors raised by `Audio.play` that the claims exercise
(`audio_exceptions.InvalidRouting`, `audio_exceptions.Clipping`). -/
inductive AudioError
  | invalidRouting
  | clipping
deriving DecidableEq

/-- Embeds `np.max(np.abs(temp))` over a channel-major multi-channel
signal (padded with 0, which cannot affect a comparison against 1). -/
noncomputable def maxAbs (chans : List (List ℝ)) : ℝ :=
  ((chans.flatten).map (fun x => |x|)).foldr max 0

/-- Embeds `np.mean` of a one-dimensional array. -/
noncomputable def mean (l : List ℝ) : ℝ := l.sum / l.length

/-- Embeds the per-channel normalization branch of `Audio._set_level`
(level omitted): remove the DC offset, divide by the peak magnitude, and
divide by the channel count. -/
noncomputable def normalizeChan (ch : List ℝ) (numChans : ℕ) : List ℝ :=
  let centered := ch.map (fun x => x - mean ch)
  let peak := (centered.map (fun x => |x|)).foldr max 0
  centered.map (fun x => x / peak / numChans)

/-- Embeds `Audio._set_level`: with a level, multiply every sample by
`db2mag(level)`; with no level, normalize each channel. -/
noncomputable def set_level (chans : List (List ℝ)) (level : Option ℝ) : List (List ℝ) :=
  match level with
  | none => chans.map (fun ch => normalizeChan ch chans.length)
  | some lvl => chans.map (fun ch => ch.map (fun x => x * db2mag lvl))

/-- Embeds the decision pipeline of `Audio.play` on a channel-major signal:
routing validation, then `_set_level`, then `_check_clipping`
(`np.max(np.abs(temp)) > 1` raises `Clipping` before any playback), then
channel/routing truncation to the available device outputs; the returned
pair is what `sd.play` would receive. Device enumeration itself is I/O and
outside the embedding. -/
noncomputable def play (signal : List (List ℝ)) (level : Option ℝ)
    (numOutputs : ℕ) (routing : List ℕ) :
    Except AudioError (List (List ℝ) × List ℕ) :=
  if signal.length ≠ routing.length ∨ routing = [] then
    Except.error AudioError.invalidRouting
  else
    let temp := set_level signal level
    if maxAbs temp > 1 then Except.error AudioError.clipping
    else
      let truncated := temp.take numOutputs
      Except.ok (truncated, routing.take truncated.length)

/-- Claim C4: with valid routing, `play` raises `Clipping` exactly when the
post-leveling signal has maximum absolute amplitude above full scale, and
in that case nothing is handed to the audio device (no attenuated signal
is ever returned). -/
theorem C4_play_clipping (signal : List (List ℝ)) (level : ℝ)
    (numOutputs : ℕ) (routing : List ℕ)
    (hroute : signal.length = routing.length) (hne : routing ≠ []) :
    (play signal (some level) numOutputs routing = Except.error AudioError.clipping ↔
      1 < maxAbs (signal.map (fun ch => ch.map (fun x => x * db2mag level)))) ∧
    (1 < maxAbs (signal.map (fun ch => ch.map (fun x => x * db2mag level))) →
      ∀ out, play signal (some level) numOutputs routing ≠ Except.ok out) := by
  unfold play
  rw [if_neg (by push_neg; exact ⟨hroute, hne⟩)]
  simp only [set_level]
  constructor
  · constructor
    · intro h
      by_contra hmax
      rw [if_neg hmax] at h
      exact absurd h (by simp)
    · intro h
      rw [if_pos h]
  · intro h out
    rw [if_pos h]
    simp

/-- Witness for claim C4: the one-sample signal `[[2]]` at level 0 dB. -/
theorem C4_play_clipping_witness :
    ([[ (2 : ℝ) ]].length = [1].length ∧ ([1] : List ℕ) ≠ []) ∧
    ((play [[(2 : ℝ)]] (some 0) 1 [1] = Except.error AudioError.clipping ↔
      1 < maxAbs ([[(2 : ℝ)]].map (fun ch => ch.map (fun x => x * db2mag 0)))) ∧
    (1 < maxAbs ([[(2 : ℝ)]].map (fun ch => ch.map (fun x => x * db2mag 0))) →
      ∀ out, play [[(2 : ℝ)]] (some 0) 1 [1] ≠ Except.ok out)) :=
  ⟨⟨rfl, by simp⟩, C4_play_clipping [[(2 : ℝ)]] 0 1 [1] rfl (by simp)⟩

/-! ### models/stimulusmodel.py : stimulus creation pipeline -/

/-- Collect a list of fallible results, failing if any element failed. -/
def seqOption {α : Type} : List (Option α) → Option (List α)
  | [] => some []
  | none :: _ => none
  | some a :: rest => (seqOption rest).map (fun l => a :: l)

/-- Embeds `StimulusModel.create_stimulus`: draw the seeded per-channel
phases, then per channel synthesize a warble tone, gate it with a 40 ms
ramp, and normalize it to -40 dB RMS; any exception in the loop aborts the
whole call (`none`). Channels are kept channel-major here; the source's
final transpose to sample-major does not change any per-channel content. -/
noncomputable def create_stimulus (dur fs fc mod_rate mod_depth : ℝ)
    (stim_chans : ℕ) : Option (List (List ℝ)) :=
  (get_random_phis stim_chans).bind (fun phi_rad =>
    seqOption ((List.range stim_chans).map (fun ii =>
      (doGate (warble_tone dur fs fc (phi_rad.getD ii 0) mod_rate mod_depth) 0.04 fs).bind
        (fun gated => setRMS gated (-40)))))

/-- With a non-positive duration the time vector of `np.arange` is empty. -/
lemma warble_empty (dur fs fc phi mod_rate mod_depth : ℝ)
    (hdur : dur ≤ 0) (hfs : 0 ≤ fs) :
    warble_tone dur fs fc phi mod_rate mod_depth = [] := by
  unfold warble_tone numSamples
  rw [Nat.ceil_eq_zero.mpr (mul_nonpos_iff.mpr (Or.inr ⟨hdur, hfs⟩))]
  rfl

/-- Gating an empty signal fails whenever the ramp has at least one sample:
`np.ones(0 - 2*len(gate))` raises `ValueError` on a negative size. -/
lemma doGate_empty_fail (rampdur fs : ℝ) (h : 1 ≤ (pyInt (fs * rampdur)).toNat) :
    doGate ([] : List ℝ) rampdur fs = none := by
  simp only [doGate]
  rw [if_pos (by simpa using by omega)]

/-- At 48 kHz the 40 ms ramp has `int(48000*0.04) = 1920` samples. -/
lemma gateLen_48k : (pyInt ((48000 : ℝ) * 0.04)).toNat = 1920 := by
  unfold pyInt
  rw [if_pos (by norm_num)]
  norm_num
  rfl

/-- Counterexample to claim C8: at duration 0 (48 kHz, 1 kHz carrier, one
channel) the synthesizer fails with an exception instead of producing an
empty signal: `doGate` asks for a sustain of negative length. -/
theorem C8_counterexample : create_stimulus 0 48000 1000 5 5 1 = none := by
  have hphis : get_random_phis 1 = some [((150 : ℚ) : ℝ) * π / 180] := rfl
  have hwt : warble_tone 0 48000 1000 (([((150 : ℚ) : ℝ) * π / 180]).getD 0 0) 5 5 = [] :=
    warble_empty _ _ _ _ _ _ le_rfl (by norm_num)
  unfold create_stimulus
  rw [hphis]
  rw [show List.range 1 = [0] from rfl]
  simp only [Option.some_bind, List.map_cons, List.map_nil]
  rw [hwt, doGate_empty_fail 0.04 48000 (by rw [gateLen_48k]; omega)]
  rfl

/-- Claim C8 as amended: for a non-positive duration `warble_tone` does
return an empty signal, but `create_stimulus` then fails (rather than
returning an empty stimulus) whenever the ramp `int(fs*0.04)` has at least
one sample, because `doGate` builds a negative-length sustain. -/
theorem C8_amended_empty_duration_fails (dur fs fc mod_rate mod_depth : ℝ) (n : ℕ)
    (hdur : dur ≤ 0) (hfs : 0 ≤ fs) (hramp : 1 ≤ (pyInt (fs * 0.04)).toNat)
    (hn : 1 ≤ n) (hn9 : n ≤ 9) :
    (∀ phi, warble_tone dur fs fc phi mod_rate mod_depth = []) ∧
    create_stimulus dur fs fc mod_rate mod_depth n = none := by
  refine ⟨fun phi => warble_empty _ _ _ _ _ _ hdur hfs, ?_⟩
  have hsome : get_random_phis n
      = some ((seededDraw.take n).map (fun (d : ℚ) => (d : ℝ) * π / 180)) := by
    unfold get_random_phis sample217
    rw [show degreesList.length = 9 from rfl, if_pos hn9]
    rfl
  unfold create_stimulus
  rw [hsome]
  simp only [Option.some_bind]
  obtain ⟨m, rfl⟩ : ∃ m, n = m + 1 := ⟨n - 1, by omega⟩
  rw [List.range_succ_eq_map, List.map_cons]
  rw [warble_empty _ _ _ _ _ _ hdur hfs, doGate_empty_fail 0.04 fs hramp]
  rfl

/-- Witness for the amended claim C8 at duration 0, 48 kHz, one channel. -/
theorem C8_amended_witness :
    ((0 : ℝ) ≤ 0 ∧ (0 : ℝ) ≤ 48000 ∧ 1 ≤ (pyInt ((48000 : ℝ) * 0.04)).toNat ∧
      1 ≤ 1 ∧ 1 ≤ 9) ∧
    ((∀ phi, warble_tone 0 48000 1000 phi 5 5 = []) ∧
      create_stimulus 0 48000 1000 5 5 1 = none) :=
  ⟨⟨le_rfl, by norm_num, by rw [gateLen_48k]; omega, le_rfl, by norm_num⟩,
   C8_amended_empty_duration_fails 0 48000 1000 5 5 1 le_rfl (by norm_num)
     (by rw [gateLen_48k]; omega) le_rfl (by norm_num)⟩

/-- Claim C9, checked against the code: every phase the seeded sampler can
ever return lies more than 0.1 rad away from 2.443461 (the 140-degree
value the repository's own unit test expects for one channel), because 140
degrees is not in the vetted candidate set. The determinism itself holds
(the generator is rebuilt with seed 217 on every call), but the concrete
value in the test contradicts the code. -/
theorem C9_no_140_degree_phase (n : ℕ) (l : List ℝ) (φ : ℝ)
    (hl : get_random_phis n = some l) (hφ : φ ∈ l) :
    1 / 10 < |φ - 2.443461| := by
  have hmem : ∃ d ∈ seededDraw, φ = (d : ℝ) * π / 180 := by
    unfold get_random_phis sample217 at hl
    by_cases hn : n ≤ degreesList.length
    · rw [if_pos hn] at hl
      simp only [Option.map_some'] at hl
      obtain rfl : (seededDraw.take n).map (fun (d : ℚ) => (d : ℝ) * π / 180) = l :=
        Option.some_injective _ hl
      obtain ⟨d, hd, rfl⟩ := List.mem_map.mp hφ
      exact ⟨d, List.mem_of_mem_take hd, rfl⟩
    · rw [if_neg hn] at hl
      exact absurd hl (by simp)
  obtain ⟨d, hd, rfl⟩ := hmem
  have hπ₁ := Real.pi_gt_d6
  have hπ₂ := Real.pi_lt_d6
  fin_cases hd <;> rw [lt_abs] <;>
    first
      | (left; push_cast; linarith)
      | (right; push_cast; linarith)

/-- Witness for the C9 analysis: the single-channel draw is 150 degrees in
radians, which is far from the 2.443461 rad the unit test expects. -/
theorem C9_no_140_degree_phase_witness :
    get_random_phis 1 = some [((150 : ℚ) : ℝ) * π / 180] ∧
    1 / 10 < |((150 : ℚ) : ℝ) * π / 180 - 2.443461| :=
  ⟨rfl, C9_no_140_degree_phase 1 [((150 : ℚ) : ℝ) * π / 180]
    (((150 : ℚ) : ℝ) * π / 180) rfl (List.mem_singleton_self _)⟩

/-! ### models/staircase.py : adaptive staircase controller

The staircase module is imported by `controller.py` but its source is not
part of the tree, so the controller is modelled from the specification
(sections 3, 4.1 and 6). -/

/-- Modelled from the spec: the staircase configuration consumed at
construction (`models/staircase.py` is missing from the source tree);
fields follow spec section 6. -/
structure StairConfig where
  start_val : ℚ
  step_sizes : List ℚ
  n_up : ℕ
  n_down : ℕ
  target_reversals : ℕ
  rapid_descend : Bool
  min_level : ℚ
  max_level : ℚ

/-- Modelled from the spec: a valid configuration has a non-empty list of
positive step sizes, positive up/down counts and reversal target, and
`min_level < max_level`. -/
def ValidConfig (c : StairConfig) : Prop :=
  c.step_sizes ≠ [] ∧ (∀ s ∈ c.step_sizes, 0 < s) ∧ 0 < c.n_up ∧
  0 < c.n_down ∧ 0 < c.target_reversals ∧ c.min_level < c.max_level

/-- Modelled from the spec: direction of the most recent level change. -/
inductive Direction
  | up
  | down
  | none
deriving DecidableEq

/-- Modelled from the spec: the adaptive tracking state (spec section 3,
StaircaseState). -/
structure StairState where
  current_level : ℚ
  step_index : ℕ
  direction : Direction
  consecutive_correct : ℕ
  consecutive_incorrect : ℕ
  reversals : List ℚ
  trial_count : ℕ
  rapid_descend_active : Bool
  status : Bool

/-- Modelled from the spec: the initial state of a staircase run. -/
def stairInit (c : StairConfig) : StairState :=
  { current_level := c.start_val, step_index := 0, direction := Direction.none,
    consecutive_correct := 0, consecutive_incorrect := 0, reversals := [],
    trial_count := 0, rapid_descend_active := c.rapid_descend, status := true }

/-- Modelled from the spec: the active step size; the last configured value
is reused indefinitely once the list is exhausted. -/
def activeStep (c : StairConfig) (s : StairState) : ℚ :=
  if s.step_index < c.step_sizes.length then c.step_sizes.getD s.step_index 0
  else c.step_sizes.getLastD 0

/-- Modelled from the spec: run counter update for consecutive correct
responses (a correct response increments, an incorrect one resets). -/
def newCC (s : StairState) (outcome : ℤ) : ℕ :=
  if outcome = 1 then s.consecutive_correct + 1 else 0

/-- Modelled from the spec: run counter update for consecutive incorrect
responses. -/
def newCI (s : StairState) (outcome : ℤ) : ℕ :=
  if outcome = 1 then 0 else s.consecutive_incorrect + 1

/-- Modelled from the spec: the unclamped level after applying the active
rule (1-up/1-down while rapid descend is active, the configured
n-up/n-down thereafter). -/
def rawLevel (c : StairConfig) (s : StairState) (outcome : ℤ) : ℚ :=
  if (if s.rapid_descend_active then 1 else c.n_down) ≤ newCC s outcome then
    s.current_level - activeStep c s
  else if (if s.rapid_descend_active then 1 else c.n_up) ≤ newCI s outcome then
    s.current_level + activeStep c s
  else s.current_level

/-- Modelled from the spec: the new tracking direction. -/
def newDirection (c : StairConfig) (s : StairState) (outcome : ℤ) : Direction :=
  if (if s.rapid_descend_active then 1 else c.n_down) ≤ newCC s outcome then
    Direction.down
  else if (if s.rapid_descend_active then 1 else c.n_up) ≤ newCI s outcome then
    Direction.up
  else s.direction

/-- Modelled from the spec: step 5 of `add_response` clamps the level into
the configured range. -/
def clampedLevel (c : StairConfig) (s : StairState) (outcome : ℤ) : ℚ :=
  max c.min_level (min c.max_level (rawLevel c s outcome))

/-- Modelled from the spec: reversal detection; a direction change during
rapid descend is not recorded, afterwards the pre-change level is
appended. -/
def newReversals (c : StairConfig) (s : StairState) (outcome : ℤ) : List ℚ :=
  if s.direction ≠ Direction.none ∧ s.direction ≠ newDirection c s outcome then
    (if s.rapid_descend_active then s.reversals
     else s.reversals ++ [s.current_level])
  else s.reversals

/-- Modelled from the spec: one `add_response` step of the staircase
controller (spec section 4.1): record the trial, update the run counters,
apply the active rule, clamp the level, detect reversals (the first one
during rapid descend merely deactivates it, subsequent ones advance the
step index), and complete once enough reversals are collected. -/
def addResponse (c : StairConfig) (s : StairState) (outcome : ℤ) : StairState :=
  { current_level := clampedLevel c s outcome,
    step_index :=
      if (s.direction ≠ Direction.none ∧ s.direction ≠ newDirection c s outcome) ∧
          ¬s.rapid_descend_active then
        s.step_index + 1
      else s.step_index,
    direction := newDirection c s outcome,
    consecutive_correct :=
      if (if s.rapid_descend_active then 1 else c.n_down) ≤ newCC s outcome then 0
      else newCC s outcome,
    consecutive_incorrect :=
      if (if s.rapid_descend_active then 1 else c.n_down) ≤ newCC s outcome then
        newCI s outcome
      else if (if s.rapid_descend_active then 1 else c.n_up) ≤ newCI s outcome then 0
      else newCI s outcome,
    reversals := newReversals c s outcome,
    trial_count := s.trial_count + 1,
    rapid_descend_active :=
      if s.direction ≠ Direction.none ∧ s.direction ≠ newDirection c s outcome then
        false
      else s.rapid_descend_active,
    status := decide ((newReversals c s outcome).length < c.target_reversals) }

/-- Claim C3: for every valid configuration and any response sequence, the
level after every `add_response` call lies in `[min_level, max_level]`
(any post-call state is `addResponse` applied to the state reached by some
prefix of responses). -/
theorem C3_staircase_level_bounds (c : StairConfig) (hc : ValidConfig c)
    (resps : List ℤ) (r : ℤ) :
    c.min_level ≤
      (addResponse c (resps.foldl (addResponse c) (stairInit c)) r).current_level ∧
    (addResponse c (resps.foldl (addResponse c) (stairInit c)) r).current_level ≤
      c.max_level := by
  have hmm : c.min_level ≤ c.max_level := le_of_lt hc.2.2.2.2.2
  constructor
  · exact le_max_left _ _
  · exact max_le hmm (min_le_left _ _)

/-- The configuration of the spec's worked example (section 8). -/
def exampleConfig : StairConfig :=
  { start_val := 30, step_sizes := [10, 5, 2], n_up := 1, n_down := 2,
    target_reversals := 5, rapid_descend := true, min_level := -50, max_level := 90 }

/-- Witness for claim C3 on the spec's example configuration after the
response sequence `[+1, -1]` and a final `+1`. -/
theorem C3_staircase_witness :
    ValidConfig exampleConfig ∧
    ((-50 : ℚ) ≤ (addResponse exampleConfig
        (List.foldl (addResponse exampleConfig) (stairInit exampleConfig) [1, -1])
        1).current_level ∧
      (addResponse exampleConfig
        (List.foldl (addResponse exampleConfig) (stairInit exampleConfig) [1, -1])
        1).current_level ≤ 90) := by
  have hv : ValidConfig exampleConfig := by
    refine ⟨by simp [exampleConfig], ?_, by norm_num [exampleConfig],
      by norm_num [exampleConfig], by norm_num [exampleConfig],
      by norm_num [exampleConfig]⟩
    intro s hs
    fin_cases hs <;> norm_num [exampleConfig]
  exact ⟨hv, C3_staircase_level_bounds exampleConfig hv [1, -1] 1⟩

/-! ### models/scoringmodel.py : threshold scoring -/

/-- One row of the pooled trial CSV data consumed by `ScoringModel`. -/
structure TrialRow where
  subject : String
  test_freq : ℚ
  reversal : Bool
  desired_level_dB : ℝ

/-- Order-preserving first-occurrence deduplication, as performed by
`pandas.Series.unique`. -/
def uniqueVals {α : Type} [DecidableEq α] : List α → List α
  | [] => []
  | a :: l => a :: uniqueVals (l.filter (fun b => decide (b ≠ a)))
  termination_by l => l.length
  decreasing_by
    simp only [List.length_cons]
    exact Nat.lt_succ_of_le (List.length_filter_le _ _)

/-- Embeds the positional Python slice `series[-k:]`: the last `k`
elements. -/
def lastSlice {α : Type} (k : ℕ) (l : List α) : List α := l.drop (l.length - k)

/-- Embeds the loop body of `ScoringModel.score`: filter the pooled data by
frequency, then by the reversal flag, and average `desired_level_dB` over
the last `k` rows. The subject loop variable does not appear here because
the source never uses it to filter. -/
noncomputable def thresholdFor (rows : List TrialRow) (k : ℕ) (freq : ℚ) : ℝ :=
  mean (lastSlice k
    (((rows.filter (fun r => decide (r.test_freq = freq))).filter
        (fun r => r.reversal)).map (fun r => r.desired_level_dB)))

/-- Embeds `ScoringModel.score`: reject a non-positive reversal count
(`ValueError`), then emit one `(subject, freq, threshold)` triple per
subject/frequency pair of the pooled data. -/
noncomputable def score (rows : List TrialRow) (num_reversals : ℤ) :
    Option (List (String × ℚ × ℝ)) :=
  if num_reversals ≤ 0 then none
  else
    some ((uniqueVals (rows.map (fun r => r.subject))).flatMap (fun sub =>
      (uniqueVals (rows.map (fun r => r.test_freq))).map (fun freq =>
        (sub, freq, thresholdFor rows num_reversals.toNat freq))))

/-- Claim C10: every triple emitted by `score` carries a threshold that is a
function of the frequency alone, every subject/frequency pair of the
pooled data is emitted with that per-frequency value, and consequently any
two subjects receive the identical threshold for the same frequency. -/
theorem C10_score_subject_independent (rows : List TrialRow) (k : ℤ) (hk : 0 < k) :
    ∃ L, score rows k = some L ∧
      (∀ s f t, (s, f, t) ∈ L → t = thresholdFor rows k.toNat f) ∧
      (∀ s ∈ uniqueVals (rows.map (fun r => r.subject)),
        ∀ f ∈ uniqueVals (rows.map (fun r => r.test_freq)),
          (s, f, thresholdFor rows k.toNat f) ∈ L) ∧
      (∀ s₁ s₂ f t₁ t₂, (s₁, f, t₁) ∈ L → (s₂, f, t₂) ∈ L → t₁ = t₂) := by
  have hval : ∀ s f t,
      (s, f, t) ∈ (uniqueVals (rows.map (fun r => r.subject))).flatMap (fun sub =>
        (uniqueVals (rows.map (fun r => r.test_freq))).map (fun freq =>
          (sub, freq, thresholdFor rows k.toNat freq))) →
      t = thresholdFor rows k.toNat f := by
    intro s f t ht
    obtain ⟨sub, hsub, hmem⟩ := List.mem_flatMap.mp ht
    obtain ⟨freq, hfreq, heq⟩ := List.mem_map.mp hmem
    injection heq with h1 h23
    injection h23 with h2 h3
    subst h2
    subst h3
    rfl
  refine ⟨(uniqueVals (rows.map (fun r => r.subject))).flatMap (fun sub =>
      (uniqueVals (rows.map (fun r => r.test_freq))).map (fun freq =>
        (sub, freq, thresholdFor rows k.toNat freq))), ?_, hval, ?_, ?_⟩
  · unfold score
    rw [if_neg (by omega)]
  · intro s hs f hf
    exact List.mem_flatMap.mpr ⟨s, hs, List.mem_map.mpr ⟨f, hf, rfl⟩⟩
  · intro s₁ s₂ f t₁ t₂ h₁ h₂
    rw [hval s₁ f t₁ h₁, hval s₂ f t₂ h₂]

/-- Two subjects sharing one frequency, used to witness claim C10. -/
def exampleRows : List TrialRow :=
  [{ subject := "a", test_freq := 1000, reversal := true, desired_level_dB := 30 },
   { subject := "b", test_freq := 1000, reversal := true, desired_level_dB := 40 }]

/-- Witness for claim C10 on the two-subject example data. -/
theorem C10_score_witness :
    (0 : ℤ) < 1 ∧
    ∃ L, score exampleRows 1 = some L ∧
      (∀ s f t, (s, f, t) ∈ L → t = thresholdFor exampleRows (1 : ℤ).toNat f) ∧
      (∀ s ∈ uniqueVals (exampleRows.map (fun r => r.subject)),
        ∀ f ∈ uniqueVals (exampleRows.map (fun r => r.test_freq)),
          (s, f, thresholdFor exampleRows (1 : ℤ).toNat f) ∈ L) ∧
      (∀ s₁ s₂ f t₁ t₂, (s₁, f, t₁) ∈ L → (s₂, f, t₂) ∈ L → t₁ = t₂) :=
  ⟨by norm_num, C10_score_subject_independent exampleRows 1 (by norm_num)⟩

end Peat
